import Mathlib

/-!
Shallow embedding of the face-management core of NFD, from
`src/daemon/face/tcp-factory.cpp` (TcpFactory) and the FaceTable source
(`src/unnamed/part_000`), together with theorems settling the claims of
the specification.
-/

namespace NFD

/-! ## Addresses and endpoints

`boost::asio::ip::address` is a tagged union of an IPv4 and an IPv6
address; we carry the raw numeric value of the address (32-bit for v4,
128-bit for v6).  The wildcard "any" address of either family is the
all-zero value (`ip::address_v4::any()`, `ip::address_v6::any()`). -/

inductive IpAddr where
  | v4 (a : Nat)
  | v6 (a : Nat)
deriving DecidableEq, Repr

def IpAddr.is_v4 : IpAddr → Bool
  | .v4 _ => true
  | .v6 _ => false

def IpAddr.is_v6 : IpAddr → Bool
  | .v4 _ => false
  | .v6 _ => true

/-- `ip::address_v4::any()` as a plain `ip::address`. -/
def v4Any : IpAddr := .v4 0

/-- `ip::address_v6::any()` as a plain `ip::address`. -/
def v6Any : IpAddr := .v6 0

/-- `ip::address::is_multicast()`: 224.0.0.0/4 for v4 (top four bits
are 1110), ff00::/8 for v6 (top byte 0xff). -/
def IpAddr.is_multicast : IpAddr → Bool
  | .v4 a => a / 2 ^ 28 = 14
  | .v6 a => a / 2 ^ 120 = 255

/-- `ip::address::is_loopback()`: 127.0.0.0/8 for v4, `::1` for v6. -/
def IpAddr.is_loopback : IpAddr → Bool
  | .v4 a => a / 2 ^ 24 = 127
  | .v6 a => a = 1

/-- `tcp::Endpoint` = `boost::asio::ip::tcp::endpoint`: an (address, port)
value pair. -/
structure Endpoint where
  addr : IpAddr
  port : Nat
deriving DecidableEq, Repr

/-- One entry of `listNetworkInterfaces()` (a `NetworkInterfaceInfo`):
the numeric values of its IPv4 and IPv6 addresses. -/
structure NetworkInterfaceInfo where
  ipv4Addresses : List Nat
  ipv6Addresses : List Nat
deriving DecidableEq, Repr

/-! ## The prohibited-endpoint set

`m_prohibitedEndpoints` is a `std::set<tcp::Endpoint>`; we model it as a
duplicate-free list, where `std::set::insert` is a no-op on an element
already present. -/

/-- `std::set<tcp::Endpoint>::insert`. -/
def setInsert (s : List Endpoint) (e : Endpoint) : List Endpoint :=
  if e ∈ s then s else s ++ [e]

/-- `TcpFactory::prohibitEndpoint`, with an explicit bound `fuel` on the
depth of the mutual recursion between `prohibitEndpoint` and the two
expansion helpers (`none` means the bound was exhausted).  The body
mirrors the C++: a v4 wildcard endpoint first expands into every
non-wildcard v4 interface address at the same port (recursively
prohibiting each), symmetrically for v6, and then the original endpoint
itself is inserted.  `nics` is the snapshot returned by
`listNetworkInterfaces()`. -/
def prohibitEndpointFuel (nics : List NetworkInterfaceInfo) :
    Nat → List Endpoint → Endpoint → Option (List Endpoint)
  | 0, _, _ => none
  | fuel + 1, s, e =>
    let expanded : Option (List Endpoint) :=
      if e.addr.is_v4 ∧ e.addr = v4Any then
        -- TcpFactory::prohibitAllIpv4Endpoints(e.port())
        nics.foldlM (fun s1 nic =>
          nic.ipv4Addresses.foldlM (fun s2 a =>
            if IpAddr.v4 a ≠ v4Any then
              prohibitEndpointFuel nics fuel s2 ⟨.v4 a, e.port⟩
            else
              pure s2) s1) s
      else if e.addr.is_v6 ∧ e.addr = v6Any then
        -- TcpFactory::prohibitAllIpv6Endpoints(e.port())
        nics.foldlM (fun s1 nic =>
          nic.ipv6Addresses.foldlM (fun s2 a =>
            if IpAddr.v6 a ≠ v6Any then
              prohibitEndpointFuel nics fuel s2 ⟨.v6 a, e.port⟩
            else
              pure s2) s1) s
      else
        pure s
    expanded.map (fun s3 => setInsert s3 e)

/-- `TcpFactory::prohibitAllIpv4Endpoints(port)`: the v4 expansion loop,
exactly the expression inlined in the v4-wildcard branch of
`prohibitEndpointFuel`. -/
def prohibitAllIpv4Endpoints (nics : List NetworkInterfaceInfo) (fuel : Nat)
    (s : List Endpoint) (port : Nat) : Option (List Endpoint) :=
  nics.foldlM (fun s1 nic =>
    nic.ipv4Addresses.foldlM (fun s2 a =>
      if IpAddr.v4 a ≠ v4Any then
        prohibitEndpointFuel nics fuel s2 ⟨.v4 a, port⟩
      else
        pure s2) s1) s

/-- `TcpFactory::prohibitAllIpv6Endpoints(port)`: the v6 expansion loop,
exactly the expression inlined in the v6-wildcard branch of
`prohibitEndpointFuel`. -/
def prohibitAllIpv6Endpoints (nics : List NetworkInterfaceInfo) (fuel : Nat)
    (s : List Endpoint) (port : Nat) : Option (List Endpoint) :=
  nics.foldlM (fun s1 nic =>
    nic.ipv6Addresses.foldlM (fun s2 a =>
      if IpAddr.v6 a ≠ v6Any then
        prohibitEndpointFuel nics fuel s2 ⟨.v6 a, port⟩
      else
        pure s2) s1) s

/-- `TcpFactory::prohibitEndpoint` as a total function: recursion depth
2 always suffices (the expansion helpers only recurse on non-wildcard
addresses; this is the content of claim C10). -/
def prohibitEndpoint (nics : List NetworkInterfaceInfo)
    (s : List Endpoint) (e : Endpoint) : List Endpoint :=
  (prohibitEndpointFuel nics 2 s e).getD s

theorem prohibitEndpointFuel_v4wild (nics : List NetworkInterfaceInfo)
    (fuel : Nat) (s : List Endpoint) (port : Nat) :
    prohibitEndpointFuel nics (fuel + 1) s ⟨v4Any, port⟩ =
      (prohibitAllIpv4Endpoints nics fuel s port).map
        (fun s3 => setInsert s3 ⟨v4Any, port⟩) := by
  simp [prohibitEndpointFuel, prohibitAllIpv4Endpoints, IpAddr.is_v4, v4Any]

theorem prohibitEndpointFuel_v6wild (nics : List NetworkInterfaceInfo)
    (fuel : Nat) (s : List Endpoint) (port : Nat) :
    prohibitEndpointFuel nics (fuel + 1) s ⟨v6Any, port⟩ =
      (prohibitAllIpv6Endpoints nics fuel s port).map
        (fun s3 => setInsert s3 ⟨v6Any, port⟩) := by
  simp [prohibitEndpointFuel, prohibitAllIpv6Endpoints, IpAddr.is_v6, v6Any,
    v4Any]

/-- On a non-wildcard endpoint the recursion takes the non-expanding
branch: one unit of fuel suffices and the endpoint is simply inserted. -/
theorem prohibitEndpointFuel_concrete (nics : List NetworkInterfaceInfo)
    (fuel : Nat) (s : List Endpoint) (e : Endpoint)
    (h4 : e.addr ≠ v4Any) (h6 : e.addr ≠ v6Any) :
    prohibitEndpointFuel nics (fuel + 1) s e = some (setInsert s e) := by
  simp only [prohibitEndpointFuel]
  rw [if_neg (fun hc => h4 hc.2), if_neg (fun hc => h6 hc.2)]
  rfl

/-- Pure value of the v4 expansion loop: fold `setInsert` of every
non-wildcard v4 interface address (paired with `port`) over the
interface snapshot. -/
def v4Expansion (nics : List NetworkInterfaceInfo) (port : Nat)
    (s : List Endpoint) : List Endpoint :=
  nics.foldl (fun s1 nic =>
    nic.ipv4Addresses.foldl (fun s2 a =>
      if IpAddr.v4 a ≠ v4Any then setInsert s2 ⟨.v4 a, port⟩ else s2) s1) s

/-- Pure value of the v6 expansion loop. -/
def v6Expansion (nics : List NetworkInterfaceInfo) (port : Nat)
    (s : List Endpoint) : List Endpoint :=
  nics.foldl (fun s1 nic =>
    nic.ipv6Addresses.foldl (fun s2 a =>
      if IpAddr.v6 a ≠ v6Any then setInsert s2 ⟨.v6 a, port⟩ else s2) s1) s

theorem innerV4_eq (nics : List NetworkInterfaceInfo) (fuel : Nat)
    (port : Nat) (addrs : List Nat) : ∀ s : List Endpoint,
    (addrs.foldlM (fun s2 a =>
        if IpAddr.v4 a ≠ v4Any then
          prohibitEndpointFuel nics (fuel + 1) s2 ⟨.v4 a, port⟩
        else
          pure s2) s)
      = some (addrs.foldl (fun s2 a =>
          if IpAddr.v4 a ≠ v4Any then setInsert s2 ⟨.v4 a, port⟩ else s2) s) := by
  induction addrs with
  | nil => intro s; rfl
  | cons a rest ih =>
    intro s
    by_cases ha : IpAddr.v4 a ≠ v4Any
    · have hc : prohibitEndpointFuel nics (fuel + 1) s ⟨.v4 a, port⟩ =
          some (setInsert s ⟨.v4 a, port⟩) :=
        prohibitEndpointFuel_concrete nics fuel s ⟨.v4 a, port⟩ ha (by simp [v6Any])
      simp only [List.foldlM_cons, List.foldl_cons, if_pos ha, hc,
        Option.bind_eq_bind, Option.some_bind]
      exact ih _
    · simp only [List.foldlM_cons, List.foldl_cons, if_neg ha]
      simpa using ih s

theorem innerV6_eq (nics : List NetworkInterfaceInfo) (fuel : Nat)
    (port : Nat) (addrs : List Nat) : ∀ s : List Endpoint,
    (addrs.foldlM (fun s2 a =>
        if IpAddr.v6 a ≠ v6Any then
          prohibitEndpointFuel nics (fuel + 1) s2 ⟨.v6 a, port⟩
        else
          pure s2) s)
      = some (addrs.foldl (fun s2 a =>
          if IpAddr.v6 a ≠ v6Any then setInsert s2 ⟨.v6 a, port⟩ else s2) s) := by
  induction addrs with
  | nil => intro s; rfl
  | cons a rest ih =>
    intro s
    by_cases ha : IpAddr.v6 a ≠ v6Any
    · have hc : prohibitEndpointFuel nics (fuel + 1) s ⟨.v6 a, port⟩ =
          some (setInsert s ⟨.v6 a, port⟩) :=
        prohibitEndpointFuel_concrete nics fuel s ⟨.v6 a, port⟩ (by simp [v4Any]) ha
      simp only [List.foldlM_cons, List.foldl_cons, if_pos ha, hc,
        Option.bind_eq_bind, Option.some_bind]
      exact ih _
    · simp only [List.foldlM_cons, List.foldl_cons, if_neg ha]
      simpa using ih s

theorem outerV4_eq (nics : List NetworkInterfaceInfo) (fuel : Nat)
    (port : Nat) : ∀ (l : List NetworkInterfaceInfo) (s : List Endpoint),
    (l.foldlM (fun s1 nic =>
        nic.ipv4Addresses.foldlM (fun s2 a =>
          if IpAddr.v4 a ≠ v4Any then
            prohibitEndpointFuel nics (fuel + 1) s2 ⟨.v4 a, port⟩
          else
            pure s2) s1) s)
      = some (l.foldl (fun s1 nic =>
          nic.ipv4Addresses.foldl (fun s2 a =>
            if IpAddr.v4 a ≠ v4Any then setInsert s2 ⟨.v4 a, port⟩ else s2) s1) s) := by
  intro l
  induction l with
  | nil => intro s; rfl
  | cons nic rest ih =>
    intro s
    simp only [List.foldlM_cons, List.foldl_cons,
      innerV4_eq nics fuel port nic.ipv4Addresses s,
      Option.bind_eq_bind, Option.some_bind]
    exact ih _

theorem outerV6_eq (nics : List NetworkInterfaceInfo) (fuel : Nat)
    (port : Nat) : ∀ (l : List NetworkInterfaceInfo) (s : List Endpoint),
    (l.foldlM (fun s1 nic =>
        nic.ipv6Addresses.foldlM (fun s2 a =>
          if IpAddr.v6 a ≠ v6Any then
            prohibitEndpointFuel nics (fuel + 1) s2 ⟨.v6 a, port⟩
          else
            pure s2) s1) s)
      = some (l.foldl (fun s1 nic =>
          nic.ipv6Addresses.foldl (fun s2 a =>
            if IpAddr.v6 a ≠ v6Any then setInsert s2 ⟨.v6 a, port⟩ else s2) s1) s) := by
  intro l
  induction l with
  | nil => intro s; rfl
  | cons nic rest ih =>
    intro s
    simp only [List.foldlM_cons, List.foldl_cons,
      innerV6_eq nics fuel port nic.ipv6Addresses s,
      Option.bind_eq_bind, Option.some_bind]
    exact ih _

theorem prohibitAllIpv4Endpoints_eq (nics : List NetworkInterfaceInfo)
    (fuel : Nat) (port : Nat) (s : List Endpoint) :
    prohibitAllIpv4Endpoints nics (fuel + 1) s port =
      some (v4Expansion nics port s) :=
  outerV4_eq nics fuel port nics s

theorem prohibitAllIpv6Endpoints_eq (nics : List NetworkInterfaceInfo)
    (fuel : Nat) (port : Nat) (s : List Endpoint) :
    prohibitAllIpv6Endpoints nics (fuel + 1) s port =
      some (v6Expansion nics port s) :=
  outerV6_eq nics fuel port nics s

/-- Closed form of `prohibitEndpoint` on the v4 wildcard endpoint. -/
theorem prohibitEndpoint_v4wild (nics : List NetworkInterfaceInfo)
    (s : List Endpoint) (port : Nat) :
    prohibitEndpoint nics s ⟨v4Any, port⟩ =
      setInsert (v4Expansion nics port s) ⟨v4Any, port⟩ := by
  simp [prohibitEndpoint, prohibitEndpointFuel_v4wild,
    prohibitAllIpv4Endpoints_eq]

/-- Closed form of `prohibitEndpoint` on the v6 wildcard endpoint. -/
theorem prohibitEndpoint_v6wild (nics : List NetworkInterfaceInfo)
    (s : List Endpoint) (port : Nat) :
    prohibitEndpoint nics s ⟨v6Any, port⟩ =
      setInsert (v6Expansion nics port s) ⟨v6Any, port⟩ := by
  simp [prohibitEndpoint, prohibitEndpointFuel_v6wild,
    prohibitAllIpv6Endpoints_eq]

/-- Closed form of `prohibitEndpoint` on a concrete (non-wildcard)
endpoint. -/
theorem prohibitEndpoint_concrete (nics : List NetworkInterfaceInfo)
    (s : List Endpoint) (e : Endpoint)
    (h4 : e.addr ≠ v4Any) (h6 : e.addr ≠ v6Any) :
    prohibitEndpoint nics s e = setInsert s e := by
  simp [prohibitEndpoint, prohibitEndpointFuel_concrete nics 1 s e h4 h6]

theorem mem_setInsert (s : List Endpoint) (e x : Endpoint) :
    x ∈ setInsert s e ↔ x ∈ s ∨ x = e := by
  unfold setInsert
  by_cases he : e ∈ s
  · simp only [if_pos he]
    constructor
    · exact Or.inl
    · rintro (hx | rfl)
      · exact hx
      · exact he
  · simp [if_neg he]

theorem mem_v4Expansion (nics : List NetworkInterfaceInfo) (port : Nat)
    (x : Endpoint) : ∀ s : List Endpoint,
    x ∈ v4Expansion nics port s ↔
      x ∈ s ∨ ∃ nic ∈ nics, ∃ a ∈ nic.ipv4Addresses,
        IpAddr.v4 a ≠ v4Any ∧ x = ⟨.v4 a, port⟩ := by
  unfold v4Expansion
  induction nics with
  | nil => simp
  | cons nic rest ih =>
    intro s
    simp only [List.foldl_cons, ih]
    have hinner : ∀ s1 : List Endpoint,
        x ∈ nic.ipv4Addresses.foldl (fun s2 a =>
            if IpAddr.v4 a ≠ v4Any then setInsert s2 ⟨.v4 a, port⟩ else s2) s1 ↔
          x ∈ s1 ∨ ∃ a ∈ nic.ipv4Addresses,
            IpAddr.v4 a ≠ v4Any ∧ x = ⟨.v4 a, port⟩ := by
      induction nic.ipv4Addresses with
      | nil => simp
      | cons a arest aih =>
        intro s1
        by_cases ha : IpAddr.v4 a ≠ v4Any
        · simp only [List.foldl_cons, if_pos ha, aih, mem_setInsert,
            List.mem_cons]
          constructor
          · rintro ((hx | rfl) | ⟨b, hb, hbne, rfl⟩)
            · exact Or.inl hx
            · exact Or.inr ⟨a, Or.inl rfl, ha, rfl⟩
            · exact Or.inr ⟨b, Or.inr hb, hbne, rfl⟩
          · rintro (hx | ⟨b, (rfl | hb), hbne, rfl⟩)
            · exact Or.inl (Or.inl hx)
            · exact Or.inl (Or.inr rfl)
            · exact Or.inr ⟨b, hb, hbne, rfl⟩
        · simp only [List.foldl_cons, if_neg ha, aih, List.mem_cons]
          constructor
          · rintro (hx | ⟨b, hb, hbne, rfl⟩)
            · exact Or.inl hx
            · exact Or.inr ⟨b, Or.inr hb, hbne, rfl⟩
          · rintro (hx | ⟨b, (rfl | hb), hbne, rfl⟩)
            · exact Or.inl hx
            · exact absurd hbne ha
            · exact Or.inr ⟨b, hb, hbne, rfl⟩
    simp only [hinner, List.mem_cons]
    constructor
    · rintro ((hx | ⟨a, ha, hane, rfl⟩) | ⟨nic2, hnic2, a, ha, hane, rfl⟩)
      · exact Or.inl hx
      · exact Or.inr ⟨nic, Or.inl rfl, a, ha, hane, rfl⟩
      · exact Or.inr ⟨nic2, Or.inr hnic2, a, ha, hane, rfl⟩
    · rintro (hx | ⟨nic2, (rfl | hnic2), a, ha, hane, rfl⟩)
      · exact Or.inl (Or.inl hx)
      · exact Or.inl (Or.inr ⟨a, ha, hane, rfl⟩)
      · exact Or.inr ⟨nic2, hnic2, a, ha, hane, rfl⟩

theorem mem_v6Expansion (nics : List NetworkInterfaceInfo) (port : Nat)
    (x : Endpoint) : ∀ s : List Endpoint,
    x ∈ v6Expansion nics port s ↔
      x ∈ s ∨ ∃ nic ∈ nics, ∃ a ∈ nic.ipv6Addresses,
        IpAddr.v6 a ≠ v6Any ∧ x = ⟨.v6 a, port⟩ := by
  unfold v6Expansion
  induction nics with
  | nil => simp
  | cons nic rest ih =>
    intro s
    simp only [List.foldl_cons, ih]
    have hinner : ∀ s1 : List Endpoint,
        x ∈ nic.ipv6Addresses.foldl (fun s2 a =>
            if IpAddr.v6 a ≠ v6Any then setInsert s2 ⟨.v6 a, port⟩ else s2) s1 ↔
          x ∈ s1 ∨ ∃ a ∈ nic.ipv6Addresses,
            IpAddr.v6 a ≠ v6Any ∧ x = ⟨.v6 a, port⟩ := by
      induction nic.ipv6Addresses with
      | nil => simp
      | cons a arest aih =>
        intro s1
        by_cases ha : IpAddr.v6 a ≠ v6Any
        · simp only [List.foldl_cons, if_pos ha, aih, mem_setInsert,
            List.mem_cons]
          constructor
          · rintro ((hx | rfl) | ⟨b, hb, hbne, rfl⟩)
            · exact Or.inl hx
            · exact Or.inr ⟨a, Or.inl rfl, ha, rfl⟩
            · exact Or.inr ⟨b, Or.inr hb, hbne, rfl⟩
          · rintro (hx | ⟨b, (rfl | hb), hbne, rfl⟩)
            · exact Or.inl (Or.inl hx)
            · exact Or.inl (Or.inr rfl)
            · exact Or.inr ⟨b, hb, hbne, rfl⟩
        · simp only [List.foldl_cons, if_neg ha, aih, List.mem_cons]
          constructor
          · rintro (hx | ⟨b, hb, hbne, rfl⟩)
            · exact Or.inl hx
            · exact Or.inr ⟨b, Or.inr hb, hbne, rfl⟩
          · rintro (hx | ⟨b, (rfl | hb), hbne, rfl⟩)
            · exact Or.inl hx
            · exact absurd hbne ha
            · exact Or.inr ⟨b, hb, hbne, rfl⟩
    simp only [hinner, List.mem_cons]
    constructor
    · rintro ((hx | ⟨a, ha, hane, rfl⟩) | ⟨nic2, hnic2, a, ha, hane, rfl⟩)
      · exact Or.inl hx
      · exact Or.inr ⟨nic, Or.inl rfl, a, ha, hane, rfl⟩
      · exact Or.inr ⟨nic2, Or.inr hnic2, a, ha, hane, rfl⟩
    · rintro (hx | ⟨nic2, (rfl | hnic2), a, ha, hane, rfl⟩)
      · exact Or.inl (Or.inl hx)
      · exact Or.inl (Or.inr ⟨a, ha, hane, rfl⟩)
      · exact Or.inr ⟨nic2, hnic2, a, ha, hane, rfl⟩

/-- `prohibitEndpoint` always inserts the original endpoint itself. -/
theorem prohibitEndpoint_mem_self (nics : List NetworkInterfaceInfo)
    (s : List Endpoint) (e : Endpoint) : e ∈ prohibitEndpoint nics s e := by
  obtain ⟨addr, port⟩ := e
  match addr with
  | .v4 a =>
    by_cases ha : a = 0
    · subst ha
      rw [show (IpAddr.v4 0) = v4Any from rfl, prohibitEndpoint_v4wild]
      exact (mem_setInsert _ _ _).mpr (Or.inr rfl)
    · rw [prohibitEndpoint_concrete nics s _ (by simp [v4Any, ha]) (by simp [v6Any])]
      exact (mem_setInsert _ _ _).mpr (Or.inr rfl)
  | .v6 a =>
    by_cases ha : a = 0
    · subst ha
      rw [show (IpAddr.v6 0) = v6Any from rfl, prohibitEndpoint_v6wild]
      exact (mem_setInsert _ _ _).mpr (Or.inr rfl)
    · rw [prohibitEndpoint_concrete nics s _ (by simp [v4Any]) (by simp [v6Any, ha])]
      exact (mem_setInsert _ _ _).mpr (Or.inr rfl)

/-- `prohibitEndpoint` never removes an endpoint already prohibited. -/
theorem prohibitEndpoint_mem_mono (nics : List NetworkInterfaceInfo)
    (s : List Endpoint) (e x : Endpoint) (hx : x ∈ s) :
    x ∈ prohibitEndpoint nics s e := by
  obtain ⟨addr, port⟩ := e
  match addr with
  | .v4 a =>
    by_cases ha : a = 0
    · subst ha
      rw [show (IpAddr.v4 0) = v4Any from rfl, prohibitEndpoint_v4wild]
      exact (mem_setInsert _ _ _).mpr
        (Or.inl ((mem_v4Expansion nics port x s).mpr (Or.inl hx)))
    · rw [prohibitEndpoint_concrete nics s _ (by simp [v4Any, ha]) (by simp [v6Any])]
      exact (mem_setInsert _ _ _).mpr (Or.inl hx)
  | .v6 a =>
    by_cases ha : a = 0
    · subst ha
      rw [show (IpAddr.v6 0) = v6Any from rfl, prohibitEndpoint_v6wild]
      exact (mem_setInsert _ _ _).mpr
        (Or.inl ((mem_v6Expansion nics port x s).mpr (Or.inl hx)))
    · rw [prohibitEndpoint_concrete nics s _ (by simp [v4Any]) (by simp [v6Any, ha])]
      exact (mem_setInsert _ _ _).mpr (Or.inl hx)

/-- Claim C10: `prohibitEndpoint` terminates on every input — the mutual
recursion between `prohibitEndpoint` and the expansion helpers succeeds
within recursion depth 2, because the helpers only recurse on
non-wildcard interface addresses, which take the non-expanding branch;
the total function `prohibitEndpoint` is exactly this depth-2 value. -/
theorem c10_prohibitEndpoint_terminates (nics : List NetworkInterfaceInfo)
    (s : List Endpoint) (e : Endpoint) :
    prohibitEndpointFuel nics 2 s e = some (prohibitEndpoint nics s e) := by
  obtain ⟨addr, port⟩ := e
  match addr with
  | .v4 a =>
    by_cases ha : a = 0
    · subst ha
      rw [show (IpAddr.v4 0) = v4Any from rfl, prohibitEndpoint_v4wild,
        show (2 : Nat) = 1 + 1 from rfl, prohibitEndpointFuel_v4wild,
        show (1 : Nat) = 0 + 1 from rfl, prohibitAllIpv4Endpoints_eq]
      rfl
    · rw [prohibitEndpoint_concrete nics s _ (by simp [v4Any, ha]) (by simp [v6Any]),
        show (2 : Nat) = 1 + 1 from rfl,
        prohibitEndpointFuel_concrete nics 1 s _ (by simp [v4Any, ha]) (by simp [v6Any])]
  | .v6 a =>
    by_cases ha : a = 0
    · subst ha
      rw [show (IpAddr.v6 0) = v6Any from rfl, prohibitEndpoint_v6wild,
        show (2 : Nat) = 1 + 1 from rfl, prohibitEndpointFuel_v6wild,
        show (1 : Nat) = 0 + 1 from rfl, prohibitAllIpv6Endpoints_eq]
      rfl
    · rw [prohibitEndpoint_concrete nics s _ (by simp [v4Any]) (by simp [v6Any, ha]),
        show (2 : Nat) = 1 + 1 from rfl,
        prohibitEndpointFuel_concrete nics 1 s _ (by simp [v4Any]) (by simp [v6Any, ha])]

/-- Claim C3: prohibiting the v4 wildcard at port P prohibits every
enumerable local v4 interface address at P and the wildcard endpoint
itself, and leaves v6 membership untouched; symmetrically for the v6
wildcard and v4 membership. -/
theorem c3_wildcard_prohibition_expansion (nics : List NetworkInterfaceInfo)
    (port : Nat) (s : List Endpoint) :
    (∀ nic ∈ nics, ∀ a ∈ nic.ipv4Addresses,
        (⟨.v4 a, port⟩ : Endpoint) ∈ prohibitEndpoint nics s ⟨v4Any, port⟩) ∧
    ((⟨v4Any, port⟩ : Endpoint) ∈ prohibitEndpoint nics s ⟨v4Any, port⟩) ∧
    (∀ e : Endpoint, e.addr.is_v6 →
        (e ∈ prohibitEndpoint nics s ⟨v4Any, port⟩ ↔ e ∈ s)) ∧
    (∀ nic ∈ nics, ∀ a ∈ nic.ipv6Addresses,
        (⟨.v6 a, port⟩ : Endpoint) ∈ prohibitEndpoint nics s ⟨v6Any, port⟩) ∧
    ((⟨v6Any, port⟩ : Endpoint) ∈ prohibitEndpoint nics s ⟨v6Any, port⟩) ∧
    (∀ e : Endpoint, e.addr.is_v4 →
        (e ∈ prohibitEndpoint nics s ⟨v6Any, port⟩ ↔ e ∈ s)) := by
  rw [prohibitEndpoint_v4wild, prohibitEndpoint_v6wild]
  refine ⟨?_, ?_, ?_, ?_, ?_, ?_⟩
  · intro nic hnic a ha
    by_cases h0 : IpAddr.v4 a = v4Any
    · exact (mem_setInsert _ _ _).mpr (Or.inr (by rw [h0]))
    · exact (mem_setInsert _ _ _).mpr
        (Or.inl ((mem_v4Expansion nics port _ s).mpr
          (Or.inr ⟨nic, hnic, a, ha, h0, rfl⟩)))
  · exact (mem_setInsert _ _ _).mpr (Or.inr rfl)
  · intro e he
    rw [mem_setInsert, mem_v4Expansion]
    constructor
    · rintro ((hx | ⟨nic, _, a, _, _, rfl⟩) | rfl)
      · exact hx
      · simp [IpAddr.is_v6] at he
      · simp [IpAddr.is_v6, v4Any] at he
    · exact fun hx => Or.inl (Or.inl hx)
  · intro nic hnic a ha
    by_cases h0 : IpAddr.v6 a = v6Any
    · exact (mem_setInsert _ _ _).mpr (Or.inr (by rw [h0]))
    · exact (mem_setInsert _ _ _).mpr
        (Or.inl ((mem_v6Expansion nics port _ s).mpr
          (Or.inr ⟨nic, hnic, a, ha, h0, rfl⟩)))
  · exact (mem_setInsert _ _ _).mpr (Or.inr rfl)
  · intro e he
    rw [mem_setInsert, mem_v6Expansion]
    constructor
    · rintro ((hx | ⟨nic, _, a, _, _, rfl⟩) | rfl)
      · exact hx
      · simp [IpAddr.is_v4] at he
      · simp [IpAddr.is_v4, v6Any] at he
    · exact fun hx => Or.inl (Or.inl hx)

/-- Witness for claim C3 at a concrete interface snapshot: one NIC with
v4 address 10.0.0.1 (167772161) and v6 address ::2; prohibiting the v4
wildcard at port 6363 prohibits 10.0.0.1:6363. -/
theorem c3_wildcard_prohibition_expansion_witness :
    (⟨.v4 167772161, 6363⟩ : Endpoint) ∈
      prohibitEndpoint [⟨[167772161], [2]⟩] [] ⟨v4Any, 6363⟩ :=
  (c3_wildcard_prohibition_expansion [⟨[167772161], [2]⟩] 6363 []).1
    ⟨[167772161], [2]⟩ (by simp) 167772161 (by simp)

/-! ## The channel registry

`m_channels` is a `std::map<tcp::Endpoint, shared_ptr<TcpChannel>>`: an
association list sorted by the endpoint key, mirroring the map's
iteration order (boost compares the address — v4 before v6, then the
raw address value — and then the port).  `shared_ptr` identity is
modelled by a channel id `cid` drawn from an allocation counter
`nextChannelId`: two channels are "the same instance" when their `cid`
is equal. -/

structure TcpChannel where
  cid : Nat
  localEndpoint : Endpoint
  isListening : Bool
deriving DecidableEq, Repr

def famRank : IpAddr → Nat
  | .v4 _ => 0
  | .v6 _ => 1

def addrVal : IpAddr → Nat
  | .v4 a => a
  | .v6 a => a

/-- The strict order on `tcp::Endpoint` used by `std::map`. -/
def endpointLtb (e1 e2 : Endpoint) : Bool :=
  decide (famRank e1.addr < famRank e2.addr) ||
    (decide (famRank e1.addr = famRank e2.addr) &&
      (decide (addrVal e1.addr < addrVal e2.addr) ||
        (decide (addrVal e1.addr = addrVal e2.addr) && decide (e1.port < e2.port))))

/-- `m_channels[endpoint] = channel`: sorted insert-or-assign. -/
def channelsInsert : List (Endpoint × TcpChannel) → Endpoint → TcpChannel →
    List (Endpoint × TcpChannel)
  | [], e, c => [(e, c)]
  | (k, v) :: rest, e, c =>
    if e = k then (k, c) :: rest
    else if endpointLtb e k then (e, c) :: (k, v) :: rest
    else (k, v) :: channelsInsert rest e c

structure TcpFactory where
  m_channels : List (Endpoint × TcpChannel)
  m_prohibitedEndpoints : List Endpoint
  providedSchemes : List String
  nextChannelId : Nat
deriving DecidableEq, Repr

/-- `TcpFactory::findChannel(localEndpoint)`: `m_channels.find`,
returning `nullptr` (`none`) when absent. -/
def TcpFactory.findChannel (f : TcpFactory) (localEndpoint : Endpoint) :
    Option TcpChannel :=
  match f.m_channels.find? (fun i => i.1 = localEndpoint) with
  | some i => some i.2
  | none => none

/-- `TcpFactory::createChannel(endpoint)`: find-or-create; on the create
path a fresh channel is registered under `endpoint` and the endpoint is
prohibited. -/
def TcpFactory.createChannel (nics : List NetworkInterfaceInfo)
    (f : TcpFactory) (endpoint : Endpoint) : TcpChannel × TcpFactory :=
  match f.findChannel endpoint with
  | some channel => (channel, f)
  | none =>
    let channel : TcpChannel := ⟨f.nextChannelId, endpoint, false⟩
    let f1 := { f with m_channels := channelsInsert f.m_channels endpoint channel,
                       nextChannelId := f.nextChannelId + 1 }
    let f2 := { f1 with
      m_prohibitedEndpoints := prohibitEndpoint nics f1.m_prohibitedEndpoints endpoint }
    (channel, f2)

theorem find?_channelsInsert (e : Endpoint) (c : TcpChannel) :
    ∀ l : List (Endpoint × TcpChannel), (∀ p ∈ l, p.1 ≠ e) →
    (channelsInsert l e c).find? (fun i => i.1 = e) = some (e, c) := by
  intro l
  induction l with
  | nil => intro _; simp [channelsInsert, List.find?]
  | cons p rest ih =>
    intro h
    obtain ⟨k, v⟩ := p
    have hk : k ≠ e := h (k, v) (List.mem_cons_self _ _)
    have hek : ¬(e = k) := fun hc => hk hc.symm
    simp only [channelsInsert, if_neg hek]
    by_cases hlt : endpointLtb e k = true
    · rw [if_pos hlt]
      simp [List.find?]
    · rw [if_neg hlt]
      have hrest : ∀ p ∈ rest, p.1 ≠ e := fun q hq => h q (List.mem_cons_of_mem _ hq)
      simpa [List.find?, hk] using ih hrest

theorem countP_channelsInsert (e : Endpoint) (c : TcpChannel) :
    ∀ l : List (Endpoint × TcpChannel), (∀ p ∈ l, p.1 ≠ e) →
    (channelsInsert l e c).countP (fun p => p.1 = e) = 1 := by
  intro l
  induction l with
  | nil => intro _; simp [channelsInsert]
  | cons p rest ih =>
    intro h
    obtain ⟨k, v⟩ := p
    have hk : k ≠ e := h (k, v) (List.mem_cons_self _ _)
    have hek : ¬(e = k) := fun hc => hk hc.symm
    have hrest : ∀ q ∈ rest, q.1 ≠ e := fun q hq => h q (List.mem_cons_of_mem _ hq)
    simp only [channelsInsert, if_neg hek]
    by_cases hlt : endpointLtb e k = true
    · rw [if_pos hlt]
      have hz : rest.countP (fun p => decide (p.1 = e)) = 0 :=
        List.countP_eq_zero.mpr (by simpa using hrest)
      simp [List.countP_cons, hk, hz]
    · rw [if_neg hlt]
      simpa [List.countP_cons, hk] using ih hrest

/-- Claim C4: `createChannel` is idempotent — a second call with an
equal Endpoint returns the very same channel instance and leaves the
factory unchanged, the registry holds exactly one entry keyed by the
endpoint, and the first call (when the endpoint was fresh) registered a
new channel and prohibited the endpoint.  The hypothesis is the
`std::map` invariant that a key occurs at most once. -/
theorem c4_createChannel_idempotent (nics : List NetworkInterfaceInfo)
    (f : TcpFactory) (e : Endpoint)
    (hcount : f.m_channels.countP (fun p => p.1 = e) ≤ 1) :
    (TcpFactory.createChannel nics (TcpFactory.createChannel nics f e).2 e).1 =
      (TcpFactory.createChannel nics f e).1 ∧
    (TcpFactory.createChannel nics (TcpFactory.createChannel nics f e).2 e).2 =
      (TcpFactory.createChannel nics f e).2 ∧
    (TcpFactory.createChannel nics f e).2.m_channels.countP (fun p => p.1 = e) = 1 ∧
    (f.findChannel e = none →
      (TcpFactory.createChannel nics f e).1.cid = f.nextChannelId ∧
      e ∈ (TcpFactory.createChannel nics f e).2.m_prohibitedEndpoints) := by
  cases hfind : f.m_channels.find? (fun i => i.1 = e) with
  | some i =>
    have hmem : i ∈ f.m_channels := List.mem_of_find?_eq_some hfind
    have hpred : i.1 = e := by simpa using List.find?_some hfind
    have hpos : 0 < f.m_channels.countP (fun p => p.1 = e) :=
      List.countP_pos_iff.mpr ⟨i, hmem, by simpa using hpred⟩
    refine ⟨?_, ?_, ?_, ?_⟩
    · simp [TcpFactory.createChannel, TcpFactory.findChannel, hfind]
    · simp [TcpFactory.createChannel, TcpFactory.findChannel, hfind]
    · simp only [TcpFactory.createChannel, TcpFactory.findChannel, hfind]
      omega
    · intro hnone
      simp [TcpFactory.findChannel, hfind] at hnone
  | none =>
    have hall : ∀ p ∈ f.m_channels, p.1 ≠ e := by
      intro p hp
      have := List.find?_eq_none.mp hfind p hp
      simpa using this
    have hins := find?_channelsInsert e ⟨f.nextChannelId, e, false⟩ f.m_channels hall
    refine ⟨?_, ?_, ?_, ?_⟩
    · simp [TcpFactory.createChannel, TcpFactory.findChannel, hfind, hins]
    · simp [TcpFactory.createChannel, TcpFactory.findChannel, hfind, hins]
    · simp only [TcpFactory.createChannel, TcpFactory.findChannel, hfind]
      exact countP_channelsInsert e ⟨f.nextChannelId, e, false⟩ f.m_channels hall
    · intro _
      constructor
      · simp [TcpFactory.createChannel, TcpFactory.findChannel, hfind]
      · simp only [TcpFactory.createChannel, TcpFactory.findChannel, hfind]
        exact prohibitEndpoint_mem_self nics f.m_prohibitedEndpoints e

/-- Witness for claim C4 on an initially empty factory and the concrete
local endpoint 127.0.0.1:6363. -/
theorem c4_createChannel_idempotent_witness :
    (TcpFactory.createChannel []
        (TcpFactory.createChannel [] ⟨[], [], [], 0⟩ ⟨.v4 2130706433, 6363⟩).2
        ⟨.v4 2130706433, 6363⟩).1 =
      (TcpFactory.createChannel [] ⟨[], [], [], 0⟩ ⟨.v4 2130706433, 6363⟩).1 ∧
    (TcpFactory.createChannel [] ⟨[], [], [], 0⟩
        ⟨.v4 2130706433, 6363⟩).2.m_channels.countP
      (fun p => p.1 = ⟨.v4 2130706433, 6363⟩) = 1 := by
  have h := c4_createChannel_idempotent [] ⟨[], [], [], 0⟩
    ⟨.v4 2130706433, 6363⟩ (by simp)
  exact ⟨h.1, h.2.2.1⟩

/-! ## Configuration processing -/

/-- The value side of one key/value pair of the `face_system.tcp`
configuration section.  Modelled from the spec: the schema's value types
are yes/no and uint16 (`ConfigFile` itself is not under src/), so a value
is a well-formed yes, a well-formed no, a number, or something
malformed. -/
inductive ConfigValue where
  | yes
  | no
  | num (n : Nat)
  | malformed
deriving DecidableEq, Repr

/-- Modelled from the spec: `ConfigFile::parseYesNo` (not under src/) —
a yes/no option parses to a Bool, anything else is a fatal
configuration error. -/
def parseYesNo : ConfigValue → Except String Bool
  | .yes => .ok true
  | .no => .ok false
  | _ => .error "invalid yes/no value in face_system.tcp"

/-- Modelled from the spec: `ConfigFile::parseNumber<uint16_t>` (not
under src/) — a number in uint16 range, anything else fatal. -/
def parseNumberU16 : ConfigValue → Except String Nat
  | .num n => if n < 65536 then .ok n else .error "invalid port number in face_system.tcp"
  | _ => .error "invalid port number in face_system.tcp"

/-- `std::set<std::string>::insert` on `providedSchemes`. -/
def schemesInsert (s : List String) (x : String) : List String :=
  if x ∈ s then s else s ++ [x]

/-- `channel->listen(context.addFace, nullptr)`: the shared channel
object registered at `e` starts listening (the inbound-face sink is an
external callback and carries no further factory state). -/
def channelsSetListening (l : List (Endpoint × TcpChannel)) (e : Endpoint) :
    List (Endpoint × TcpChannel) :=
  l.map (fun p => if p.1 = e then (p.1, { p.2 with isListening := true }) else p)

/-- One iteration of the option-parsing loop of
`TcpFactory::processConfig`: a recognized key overwrites its slot of
`(wantListen, port, enableV4, enableV6)`, an unrecognized key is a
fatal error naming the key. -/
def tcpConfigStep (acc : Bool × Nat × Bool × Bool) (pair : String × ConfigValue) :
    Except String (Bool × Nat × Bool × Bool) :=
  if pair.1 = "listen" then
    (parseYesNo pair.2).map (fun b => (b, acc.2.1, acc.2.2.1, acc.2.2.2))
  else if pair.1 = "port" then
    (parseNumberU16 pair.2).map (fun n => (acc.1, n, acc.2.2.1, acc.2.2.2))
  else if pair.1 = "enable_v4" then
    (parseYesNo pair.2).map (fun b => (acc.1, acc.2.1, b, acc.2.2.2))
  else if pair.1 = "enable_v6" then
    (parseYesNo pair.2).map (fun b => (acc.1, acc.2.1, acc.2.2.1, b))
  else
    .error ("Unrecognized option face_system.tcp." ++ pair.1)

/-- The option-parsing loop of `TcpFactory::processConfig`, starting
from the defaults `(true, 6363, true, true)`. -/
def parseTcpConfig (sec : List (String × ConfigValue)) :
    Except String (Bool × Nat × Bool × Bool) :=
  sec.foldlM tcpConfigStep (true, 6363, true, true)

/-- The mutation block of `TcpFactory::processConfig` (the body of
`if (!context.isDryRun)`): insert scheme "tcp"; for each enabled family
create-or-find the channel at the family wildcard, start listening when
requested and not already listening, and insert the family scheme. -/
def applyTcpConfig (nics : List NetworkInterfaceInfo) (wantListen : Bool)
    (port : Nat) (enableV4 enableV6 : Bool) (f : TcpFactory) : TcpFactory :=
  let f0 := { f with providedSchemes := schemesInsert f.providedSchemes "tcp" }
  let f4 :=
    if enableV4 then
      let endpoint : Endpoint := ⟨v4Any, port⟩
      let r := TcpFactory.createChannel nics f0 endpoint
      let fl :=
        if wantListen && !r.1.isListening then
          { r.2 with m_channels := channelsSetListening r.2.m_channels endpoint }
        else r.2
      { fl with providedSchemes := schemesInsert fl.providedSchemes "tcp4" }
    else f0  -- only a warning when a tcp4 channel already exists
  if enableV6 then
    let endpoint : Endpoint := ⟨v6Any, port⟩
    let r := TcpFactory.createChannel nics f4 endpoint
    let fl :=
      if wantListen && !r.1.isListening then
        { r.2 with m_channels := channelsSetListening r.2.m_channels endpoint }
      else r.2
    { fl with providedSchemes := schemesInsert fl.providedSchemes "tcp6" }
  else f4  -- only a warning when a tcp6 channel already exists

/-- `FaceSystem::ConfigContext`: the dry-run flag (the `addFace` sink is
an external callback). -/
structure ConfigContext where
  isDryRun : Bool
deriving DecidableEq, Repr

/-- `TcpFactory::processConfig`.  The first component is the call's
outcome (`.error` models a thrown `ConfigFile::Error`), the second the
factory state after the call — C++ exceptions leave already-applied
mutations in place, so the state is threaded through explicitly.  An
absent section is a no-op (at most a warning); validation (the parse
loop and the both-families-disabled check) precedes the dry-run test,
which in turn guards every mutation. -/
def TcpFactory.processConfig (nics : List NetworkInterfaceInfo)
    (configSection : Option (List (String × ConfigValue)))
    (context : ConfigContext) (f : TcpFactory) :
    Except String Unit × TcpFactory :=
  match configSection with
  | none => (.ok (), f)
  | some sec =>
    match parseTcpConfig sec with
    | .error msg => (.error msg, f)
    | .ok (wantListen, port, enableV4, enableV6) =>
      if enableV4 = false ∧ enableV6 = false then
        (.error ("IPv4 and IPv6 TCP channels have been disabled. " ++
          "Remove face_system.tcp section to disable TCP channels or " ++
          "enable at least one channel type."), f)
      else if context.isDryRun then
        (.ok (), f)
      else
        (.ok (), applyTcpConfig nics wantListen port enableV4 enableV6 f)

/-- An unrecognized key makes the parsing loop fail from any
accumulator (either at that key or at an earlier malformed value). -/
theorem tcpConfigFold_error_of_unrecognized :
    ∀ (sec : List (String × ConfigValue)) (acc : Bool × Nat × Bool × Bool),
    (∃ p ∈ sec, p.1 ∉ (["listen", "port", "enable_v4", "enable_v6"] : List String)) →
    ∃ msg, sec.foldlM tcpConfigStep acc = Except.error msg := by
  intro sec
  induction sec with
  | nil => rintro acc ⟨p, hp, _⟩; exact absurd hp (List.not_mem_nil p)
  | cons q rest ih =>
    rintro acc ⟨p, hp, hkey⟩
    rw [List.foldlM_cons]
    by_cases hq : q.1 ∈ (["listen", "port", "enable_v4", "enable_v6"] : List String)
    · have hprest : p ∈ rest := by
        rcases List.mem_cons.mp hp with rfl | h
        · exact absurd hq hkey
        · exact h
      cases hstep : tcpConfigStep acc q with
      | error msg => exact ⟨msg, rfl⟩
      | ok acc2 =>
        obtain ⟨msg, hmsg⟩ := ih acc2 ⟨p, hprest, hkey⟩
        exact ⟨msg, hmsg⟩
    · refine ⟨"Unrecognized option face_system.tcp." ++ q.1, ?_⟩
      have h1 : ¬(q.1 = "listen") := fun hc => hq (by simp [hc])
      have h2 : ¬(q.1 = "port") := fun hc => hq (by simp [hc])
      have h3 : ¬(q.1 = "enable_v4") := fun hc => hq (by simp [hc])
      have h4 : ¬(q.1 = "enable_v6") := fun hc => hq (by simp [hc])
      have hstep : tcpConfigStep acc q =
          Except.error ("Unrecognized option face_system.tcp." ++ q.1) := by
        simp [tcpConfigStep, h1, h2, h3, h4]
      rw [hstep]
      rfl

/-- Claim C5: a rejected configuration (any fatal error — in particular
an unrecognized key, or both families disabled) leaves the factory
state, including the channel registry and the provided-schemes set,
exactly as it was before the call. -/
theorem c5_config_rejection_no_mutation (nics : List NetworkInterfaceInfo)
    (cs : Option (List (String × ConfigValue))) (context : ConfigContext)
    (f : TcpFactory) :
    (∀ msg, (TcpFactory.processConfig nics cs context f).1 = .error msg →
        (TcpFactory.processConfig nics cs context f).2 = f) ∧
    (∀ sec, cs = some sec →
        (∃ p ∈ sec, p.1 ∉ (["listen", "port", "enable_v4", "enable_v6"] : List String)) →
        ∃ msg, (TcpFactory.processConfig nics cs context f).1 = .error msg) ∧
    (∀ sec w p, cs = some sec → parseTcpConfig sec = .ok (w, p, false, false) →
        ∃ msg, (TcpFactory.processConfig nics cs context f).1 = .error msg) := by
  refine ⟨?_, ?_, ?_⟩
  · intro msg hmsg
    cases cs with
    | none => simp [TcpFactory.processConfig] at hmsg
    | some sec =>
      cases hp : parseTcpConfig sec with
      | error msg2 => simp [TcpFactory.processConfig, hp]
      | ok t =>
        obtain ⟨w, port, v4, v6⟩ := t
        by_cases hd : v4 = false ∧ v6 = false
        · simp [TcpFactory.processConfig, hp, hd]
        · by_cases hdry : context.isDryRun
          · simp [TcpFactory.processConfig, hp, hd, hdry] at hmsg
          · simp [TcpFactory.processConfig, hp, hd, hdry] at hmsg
  · rintro sec rfl hbad
    obtain ⟨msg, hmsg⟩ := tcpConfigFold_error_of_unrecognized sec (true, 6363, true, true) hbad
    exact ⟨msg, by simp [TcpFactory.processConfig, parseTcpConfig] at hmsg ⊢; rw [hmsg]⟩
  · rintro sec w p rfl hok
    exact ⟨("IPv4 and IPv6 TCP channels have been disabled. " ++
        "Remove face_system.tcp section to disable TCP channels or " ++
        "enable at least one channel type."),
      by simp [TcpFactory.processConfig, hok]⟩

/-- Witness for claim C5: the configuration
`{enable_v4 no, enable_v6 no}` is rejected and an initially empty
factory is left exactly empty. -/
theorem c5_config_rejection_no_mutation_witness :
    (TcpFactory.processConfig [] (some [("enable_v4", .no), ("enable_v6", .no)])
        ⟨false⟩ ⟨[], [], [], 0⟩).2 = ⟨[], [], [], 0⟩ :=
  (c5_config_rejection_no_mutation [] (some [("enable_v4", .no), ("enable_v6", .no)])
      ⟨false⟩ ⟨[], [], [], 0⟩).1
    ("IPv4 and IPv6 TCP channels have been disabled. " ++
      "Remove face_system.tcp section to disable TCP channels or " ++
      "enable at least one channel type.") (by rfl)

/-- Claim C9: with the dry-run flag set, `processConfig` leaves the
factory state untouched and its validation outcome (success or the
exact fatal error) is the same as in real mode. -/
theorem c9_dry_run_no_mutation (nics : List NetworkInterfaceInfo)
    (cs : Option (List (String × ConfigValue))) (f : TcpFactory) :
    (TcpFactory.processConfig nics cs ⟨true⟩ f).2 = f ∧
    (TcpFactory.processConfig nics cs ⟨true⟩ f).1 =
      (TcpFactory.processConfig nics cs ⟨false⟩ f).1 := by
  cases cs with
  | none => exact ⟨rfl, rfl⟩
  | some sec =>
    cases hp : parseTcpConfig sec with
    | error msg => simp [TcpFactory.processConfig, hp]
    | ok t =>
      obtain ⟨w, port, v4, v6⟩ := t
      by_cases hd : v4 = false ∧ v6 = false
      · simp [TcpFactory.processConfig, hp, hd]
      · simp [TcpFactory.processConfig, hp, hd]

/-! ## Outbound face creation -/

/-- A canonical `FaceUri`, carried together with the outcome of
resolving it into a TCP endpoint.  Modelled from the spec: the actual
conversions — `ip::address::from_string(uri.getHost())` and
`lexical_cast<uint16_t>(uri.getPort())` — live outside src/ and throw
on failure; `none` in a field means the corresponding conversion
throws. -/
structure FaceUri where
  hostAddr : Option IpAddr
  portNum : Option Nat
deriving DecidableEq, Repr

/-- `ndn::nfd::FacePersistency`. -/
inductive FacePersistency where
  | onDemand
  | persistent
  | permanent
deriving DecidableEq, Repr

/-- The observable outcome of `TcpFactory::createFace`: either the
`onFailure` callback is invoked with a (status, reason) pair, or the
connect is delegated to the channel with identity `cid`, forwarding the
persistency, the local-fields flag and (implicitly) both callbacks. -/
inductive CreateFaceResult where
  | failed (status : Nat) (reason : String)
  | connect (cid : Nat) (remote : Endpoint) (persistency : FacePersistency)
      (wantLocalFieldsEnabled : Bool)
deriving DecidableEq, Repr

/-- The family-matching predicate of the channel-selection loop in
`TcpFactory::createFace`. -/
def familyMatch (remote : Endpoint) (i : Endpoint × TcpChannel) : Bool :=
  (i.1.addr.is_v4 && remote.addr.is_v4) || (i.1.addr.is_v6 && remote.addr.is_v6)

/-- `TcpFactory::createFace`.  `Except.error` models a thrown exception
(failed endpoint resolution), `.ok` the normal return after invoking a
callback or delegating to a channel. -/
def TcpFactory.createFace (f : TcpFactory) (remoteUri : FaceUri)
    (localUri : Option FaceUri) (persistency : FacePersistency)
    (wantLocalFieldsEnabled : Bool) : Except String CreateFaceResult :=
  if localUri.isSome then
    .ok (.failed 406 "Unicast TCP faces cannot be created with a LocalUri")
  else if persistency = .onDemand then
    .ok (.failed 406 "Outgoing TCP faces do not support on-demand persistency")
  else
    match remoteUri.hostAddr, remoteUri.portNum with
    | some addr, some port =>
      let endpoint : Endpoint := ⟨addr, port⟩
      if endpoint.addr.is_multicast then
        .ok (.failed 406 "Cannot create multicast TCP faces")
      else if endpoint ∈ f.m_prohibitedEndpoints then
        .ok (.failed 406 "Requested endpoint is prohibited")
      else if wantLocalFieldsEnabled && !endpoint.addr.is_loopback then
        .ok (.failed 406 "Local fields can only be enabled on faces with local scope")
      else
        match f.m_channels.find? (familyMatch endpoint) with
        | some i => .ok (.connect i.2.cid endpoint persistency wantLocalFieldsEnabled)
        | none => .ok (.failed 504 "No channels available to connect")
    | _, _ => .error "cannot convert remoteUri host and port to a TCP endpoint"

/-- Claim C1: the rejection gates of `createFace` fire in their fixed
order — whenever a gate's condition holds and every earlier gate's
condition fails, the failure callback reports that gate's code and
reason, regardless of any later gate; in particular a request with both
a LocalUri and on-demand persistency is rejected for the LocalUri. -/
theorem c1_gate_ordering (f : TcpFactory) (remoteUri : FaceUri)
    (localUri : Option FaceUri) (persistency : FacePersistency) (w : Bool) :
    (localUri.isSome →
      TcpFactory.createFace f remoteUri localUri persistency w =
        .ok (.failed 406 "Unicast TCP faces cannot be created with a LocalUri")) ∧
    (localUri = none → persistency = .onDemand →
      TcpFactory.createFace f remoteUri localUri persistency w =
        .ok (.failed 406 "Outgoing TCP faces do not support on-demand persistency")) ∧
    (∀ addr port, localUri = none → persistency ≠ .onDemand →
      remoteUri.hostAddr = some addr → remoteUri.portNum = some port →
      addr.is_multicast = true →
      TcpFactory.createFace f remoteUri localUri persistency w =
        .ok (.failed 406 "Cannot create multicast TCP faces")) ∧
    (∀ addr port, localUri = none → persistency ≠ .onDemand →
      remoteUri.hostAddr = some addr → remoteUri.portNum = some port →
      addr.is_multicast = false →
      (⟨addr, port⟩ : Endpoint) ∈ f.m_prohibitedEndpoints →
      TcpFactory.createFace f remoteUri localUri persistency w =
        .ok (.failed 406 "Requested endpoint is prohibited")) ∧
    (∀ addr port, localUri = none → persistency ≠ .onDemand →
      remoteUri.hostAddr = some addr → remoteUri.portNum = some port →
      addr.is_multicast = false →
      (⟨addr, port⟩ : Endpoint) ∉ f.m_prohibitedEndpoints →
      w = true → addr.is_loopback = false →
      TcpFactory.createFace f remoteUri localUri persistency w =
        .ok (.failed 406 "Local fields can only be enabled on faces with local scope")) := by
  refine ⟨?_, ?_, ?_, ?_, ?_⟩
  · intro hl
    simp [TcpFactory.createFace, hl]
  · rintro rfl hp
    simp [TcpFactory.createFace, hp]
  · rintro addr port rfl hp hh hpn hm
    simp [TcpFactory.createFace, hp, hh, hpn, hm]
  · rintro addr port rfl hp hh hpn hm hproh
    simp [TcpFactory.createFace, hp, hh, hpn, hm, hproh]
  · rintro addr port rfl hp hh hpn hm hproh rfl hloop
    simp [TcpFactory.createFace, hp, hh, hpn, hm, hproh, hloop]

/-- Witness for claim C1: a request with both a LocalUri and on-demand
persistency is rejected for the LocalUri (gate 1), not for the
persistency; and a request to a prohibited non-loopback endpoint with
local fields wanted is rejected as prohibited (gate 5), not for the
local fields (gate 6). -/
theorem c1_gate_ordering_witness :
    (TcpFactory.createFace ⟨[], [], [], 0⟩ ⟨some (.v4 2130706433), some 6363⟩
        (some ⟨some (.v4 2130706433), some 6363⟩) .onDemand false =
      .ok (.failed 406 "Unicast TCP faces cannot be created with a LocalUri")) ∧
    (TcpFactory.createFace ⟨[], [⟨.v4 167772161, 6363⟩], [], 0⟩
        ⟨some (.v4 167772161), some 6363⟩ none .persistent true =
      .ok (.failed 406 "Requested endpoint is prohibited")) :=
  ⟨(c1_gate_ordering ⟨[], [], [], 0⟩ ⟨some (.v4 2130706433), some 6363⟩
      (some ⟨some (.v4 2130706433), some 6363⟩) .onDemand false).1 (by simp),
   (c1_gate_ordering ⟨[], [⟨.v4 167772161, 6363⟩], [], 0⟩
      ⟨some (.v4 167772161), some 6363⟩ none .persistent true).2.2.2.1
     (.v4 167772161) 6363 rfl (by decide) rfl rfl (by decide) (by decide)⟩

/-- Claim C7: when every policy gate passes, `createFace` delegates the
connect to the first registered channel whose address family matches
the resolved endpoint, forwarding persistency and the local-fields
flag; and the failure callback is invoked with code 504 exactly when no
channel of the matching family exists. -/
theorem c7_channel_selection (f : TcpFactory) (remoteUri : FaceUri)
    (persistency : FacePersistency) (w : Bool) (addr : IpAddr) (port : Nat)
    (hp : persistency ≠ .onDemand)
    (hh : remoteUri.hostAddr = some addr) (hpn : remoteUri.portNum = some port)
    (hm : addr.is_multicast = false)
    (hproh : (⟨addr, port⟩ : Endpoint) ∉ f.m_prohibitedEndpoints)
    (hlf : w = true → addr.is_loopback = true) :
    TcpFactory.createFace f remoteUri none persistency w =
      .ok (match f.m_channels.find? (familyMatch ⟨addr, port⟩) with
        | some i => .connect i.2.cid ⟨addr, port⟩ persistency w
        | none => .failed 504 "No channels available to connect") ∧
    (TcpFactory.createFace f remoteUri none persistency w =
        .ok (.failed 504 "No channels available to connect") ↔
      f.m_channels.find? (familyMatch ⟨addr, port⟩) = none) := by
  have hgate6 : (w && !(IpAddr.is_loopback addr)) = false := by
    cases hw : w with
    | false => rfl
    | true => simp [hlf hw]
  have hmain : TcpFactory.createFace f remoteUri none persistency w =
      .ok (match f.m_channels.find? (familyMatch ⟨addr, port⟩) with
        | some i => .connect i.2.cid ⟨addr, port⟩ persistency w
        | none => .failed 504 "No channels available to connect") := by
    simp only [TcpFactory.createFace, Option.isSome_none, Bool.false_eq_true,
      if_false, hp, if_neg hp, hh, hpn]
    rw [if_neg (by simp [hm]), if_neg hproh, if_neg (by simp [hgate6])]
    cases hfind : f.m_channels.find? (familyMatch ⟨addr, port⟩) <;> simp [hfind]
  refine ⟨hmain, ?_⟩
  rw [hmain]
  cases hfind : f.m_channels.find? (familyMatch ⟨addr, port⟩) <;> simp

/-- Witness for claim C7: a factory holding one v4 channel (identity 0
at the v4 wildcard) delegates a loopback connect with local fields
requested to that channel. -/
theorem c7_channel_selection_witness :
    TcpFactory.createFace
        ⟨[(⟨v4Any, 6363⟩, ⟨0, ⟨v4Any, 6363⟩, true⟩)], [], ["tcp", "tcp4"], 1⟩
        ⟨some (.v4 2130706433), some 7000⟩ none .persistent true =
      .ok (.connect 0 ⟨.v4 2130706433, 7000⟩ .persistent true) := by
  have h := (c7_channel_selection
      ⟨[(⟨v4Any, 6363⟩, ⟨0, ⟨v4Any, 6363⟩, true⟩)], [], ["tcp", "tcp4"], 1⟩
      ⟨some (.v4 2130706433), some 7000⟩ .persistent true (.v4 2130706433) 7000
      (by simp) rfl rfl (by decide) (by simp) (fun _ => by decide)).1
  simpa using h

/-- Claim C8: when the remote host or port fails to resolve (and the
two pre-resolution gates pass), `createFace` propagates a thrown error
— it is never delivered through the `onFailure` callback, so no
post-resolution gate (multicast, prohibited, local-fields, channel
selection) can be reported. -/
theorem c8_resolution_failure_throws (f : TcpFactory) (remoteUri : FaceUri)
    (persistency : FacePersistency) (w : Bool)
    (hp : persistency ≠ .onDemand)
    (hr : remoteUri.hostAddr = none ∨ remoteUri.portNum = none) :
    TcpFactory.createFace f remoteUri none persistency w =
      .error "cannot convert remoteUri host and port to a TCP endpoint" ∧
    ∀ r : CreateFaceResult,
      TcpFactory.createFace f remoteUri none persistency w ≠ .ok r := by
  have hmain : TcpFactory.createFace f remoteUri none persistency w =
      .error "cannot convert remoteUri host and port to a TCP endpoint" := by
    simp only [TcpFactory.createFace, Option.isSome_none, Bool.false_eq_true,
      if_false, if_neg hp]
    rcases hr with hr | hr
    · rw [hr]
    · rw [hr]
      cases remoteUri.hostAddr <;> rfl
  exact ⟨hmain, fun r hc => by rw [hmain] at hc; exact Except.noConfusion hc⟩

/-- Witness for claim C8: an unresolvable host with a resolvable port
on an empty factory is a thrown error. -/
theorem c8_resolution_failure_throws_witness :
    TcpFactory.createFace ⟨[], [], [], 0⟩ ⟨none, some 6363⟩ none .persistent false =
      .error "cannot convert remoteUri host and port to a TCP endpoint" :=
  (c8_resolution_failure_throws ⟨[], [], [], 0⟩ ⟨none, some 6363⟩ .persistent false
      (by simp) (Or.inl rfl)).1

/-! ## FaceTable (src/unnamed/part_000)

A `Face` is a shared mutable object; `shared_ptr<Face>` identity is a
`FaceRef` into a heap of face objects, so that `face->setId` mutates
the one object seen by every holder. -/

abbrev FaceId := Nat

/-- Modelled from the spec: the reserved INVALID sentinel
(`INVALID_FACEID`, declared in a header not under src/).  The spec says
ids are assigned by a strictly increasing counter "starting above the
reserved INVALID sentinel", and the FaceTable constructor starts
`m_lastFaceId` at 0 with pre-increment, so the sentinel is 0. -/
def INVALID_FACEID : FaceId := 0

abbrev FaceRef := Nat

/-- A subscription held in a face's `EventEmitter` slots: `add` wires
the forwarding engine's interest handler and data handler. -/
inductive Subscriber where
  | forwarderOnInterest
  | forwarderOnData
deriving DecidableEq, Repr

structure Face where
  id : FaceId
  onReceiveInterest : List Subscriber
  onReceiveData : List Subscriber
deriving DecidableEq, Repr

/-- One forwarding-table entry, reduced to its next-hop list. -/
structure FibEntry where
  nextHops : List FaceRef
deriving DecidableEq, Repr

/-- Modelled from the spec: `Fib::removeNextHopFromAllEntries(face)`
(the Fib source is not under src/) instructs the forwarding table to
drop this face from every next-hop list it appears in. -/
def removeNextHopFromAllEntries (fib : List FibEntry) (face : FaceRef) :
    List FibEntry :=
  fib.map (fun entry => ⟨entry.nextHops.filter (fun r => r ≠ face)⟩)

/-- The FaceTable together with the face heap and the forwarder's FIB
it mutates. -/
structure FaceTableState where
  heap : List (FaceRef × Face)
  m_lastFaceId : FaceId
  m_faces : List (FaceId × FaceRef)
  fib : List FibEntry
deriving DecidableEq, Repr

/-- Dereference a `shared_ptr<Face>`. -/
def heapGet (heap : List (FaceRef × Face)) (r : FaceRef) : Option Face :=
  match heap.find? (fun p => p.1 = r) with
  | some p => some p.2
  | none => none

/-- Mutate the face object behind a `shared_ptr<Face>`. -/
def heapSet (heap : List (FaceRef × Face)) (r : FaceRef) (g : Face → Face) :
    List (FaceRef × Face) :=
  heap.map (fun p => if p.1 = r then (p.1, g p.2) else p)

/-- `m_faces[faceId] = face` (std::map insert-or-assign). -/
def facesSet (m : List (FaceId × FaceRef)) (faceId : FaceId) (r : FaceRef) :
    List (FaceId × FaceRef) :=
  if m.any (fun p => p.1 = faceId) then
    m.map (fun p => if p.1 = faceId then (faceId, r) else p)
  else
    m ++ [(faceId, r)]

/-- `m_faces.erase(faceId)`. -/
def facesErase (m : List (FaceId × FaceRef)) (faceId : FaceId) :
    List (FaceId × FaceRef) :=
  m.filter (fun p => p.1 ≠ faceId)

/-- `FaceTable::add(face)`: assign `++m_lastFaceId`, set the face's id,
store the mapping, and subscribe the forwarder's two handlers to the
face's event slots. -/
def FaceTable.add (st : FaceTableState) (face : FaceRef) : FaceTableState :=
  let faceId := st.m_lastFaceId + 1
  let heap1 := heapSet st.heap face (fun fo => { fo with id := faceId })
  let heap2 := heapSet heap1 face (fun fo =>
    { fo with onReceiveInterest := fo.onReceiveInterest ++ [.forwarderOnInterest],
              onReceiveData := fo.onReceiveData ++ [.forwarderOnData] })
  { st with heap := heap2, m_lastFaceId := faceId,
            m_faces := facesSet st.m_faces faceId face }

/-- `FaceTable::remove(face)`: read the face's current id, erase it
from the mapping, reset the id to INVALID, clear both event-subscription
lists, and purge the face from every FIB next-hop list.  Dereferencing
an unknown `shared_ptr` is a caller contract violation (§7 of the
spec); it is modelled as leaving the state unchanged. -/
def FaceTable.remove (st : FaceTableState) (face : FaceRef) : FaceTableState :=
  match heapGet st.heap face with
  | none => st
  | some fo =>
    let faceId := fo.id
    let heap1 := heapSet st.heap face (fun f1 =>
      { f1 with id := INVALID_FACEID, onReceiveInterest := [], onReceiveData := [] })
    { st with heap := heap1,
              m_faces := facesErase st.m_faces faceId,
              fib := removeNextHopFromAllEntries st.fib face }

theorem heapGet_heapSet (r : FaceRef) (g : Face → Face) :
    ∀ heap : List (FaceRef × Face),
    heapGet (heapSet heap r g) r = (heapGet heap r).map g := by
  intro heap
  induction heap with
  | nil => rfl
  | cons p rest ih =>
    by_cases hp : p.1 = r
    · simp [heapGet, heapSet, List.find?, hp]
    · simp only [heapGet, heapSet, List.map_cons, if_neg hp] at ih ⊢
      simp only [List.find?, decide_eq_true_eq, hp, if_neg hp]
      simpa [heapGet, heapSet] using ih

/-- Claim C6: after `remove(face)` on a registered face, the face's id
is INVALID, the id-to-face mapping no longer contains the former id,
both event-subscription lists are empty, and no FIB entry references
the face as a next hop. -/
theorem c6_remove_purges_face (st : FaceTableState) (face : FaceRef)
    (fo : Face) (hreg : heapGet st.heap face = some fo) :
    (∃ f2, heapGet (FaceTable.remove st face).heap face = some f2 ∧
      f2.id = INVALID_FACEID ∧ f2.onReceiveInterest = [] ∧
      f2.onReceiveData = []) ∧
    (∀ r, (fo.id, r) ∉ (FaceTable.remove st face).m_faces) ∧
    (∀ entry ∈ (FaceTable.remove st face).fib, face ∉ entry.nextHops) := by
  refine ⟨?_, ?_, ?_⟩
  · refine ⟨⟨INVALID_FACEID, [], []⟩, ?_, rfl, rfl, rfl⟩
    simp only [FaceTable.remove, hreg]
    rw [heapGet_heapSet, hreg]
    rfl
  · intro r hr
    simp only [FaceTable.remove, hreg] at hr
    have := List.of_mem_filter hr
    simp at this
  · intro entry hentry
    simp only [FaceTable.remove, hreg, removeNextHopFromAllEntries,
      List.mem_map] at hentry
    obtain ⟨e0, _, rfl⟩ := hentry
    intro hmem
    have := List.of_mem_filter hmem
    simp at this

/-- Witness for claim C6: one face (ref 0, id 1, both handlers wired)
registered in the table, referenced by a FIB entry alongside face 5;
after removal the face object is reset. -/
theorem c6_remove_purges_face_witness :
    heapGet (FaceTable.remove
        ⟨[(0, ⟨1, [.forwarderOnInterest], [.forwarderOnData]⟩)], 1, [(1, 0)],
          [⟨[0, 5]⟩]⟩ 0).heap 0 =
      some ⟨INVALID_FACEID, [], []⟩ := by
  obtain ⟨f2, hget, hid, hi, hd⟩ := (c6_remove_purges_face
      ⟨[(0, ⟨1, [.forwarderOnInterest], [.forwarderOnData]⟩)], 1, [(1, 0)],
        [⟨[0, 5]⟩]⟩ 0 ⟨1, [.forwarderOnInterest], [.forwarderOnData]⟩ rfl).1
  obtain ⟨i2, li, ld⟩ := f2
  cases hid
  cases hi
  cases hd
  exact hget

/-- One FaceTable operation of an interleaved add/remove sequence. -/
inductive FtOp where
  | add (face : FaceRef)
  | remove (face : FaceRef)
deriving DecidableEq, Repr

/-- Run a sequence of FaceTable operations, collecting the FaceId that
each `add` call assigns (`++m_lastFaceId`, the value `add` stores into
the face). -/
def runFaceTable (st : FaceTableState) :
    List FtOp → FaceTableState × List FaceId
  | [] => (st, [])
  | .add face :: rest =>
    let res := runFaceTable (FaceTable.add st face) rest
    (res.1, (st.m_lastFaceId + 1) :: res.2)
  | .remove face :: rest => runFaceTable (FaceTable.remove st face) rest

theorem lastFaceId_add (st : FaceTableState) (face : FaceRef) :
    (FaceTable.add st face).m_lastFaceId = st.m_lastFaceId + 1 := rfl

theorem lastFaceId_remove (st : FaceTableState) (face : FaceRef) :
    (FaceTable.remove st face).m_lastFaceId = st.m_lastFaceId := by
  unfold FaceTable.remove
  cases heapGet st.heap face <;> rfl

/-- Every id in the trace exceeds the counter value at the start of the
run. -/
theorem runFaceTable_ids_gt (ops : List FtOp) : ∀ (st : FaceTableState)
    (x : FaceId), x ∈ (runFaceTable st ops).2 → st.m_lastFaceId < x := by
  induction ops with
  | nil => intro st x hx; simp [runFaceTable] at hx
  | cons op rest ih =>
    intro st x hx
    cases op with
    | add face =>
      simp only [runFaceTable, List.mem_cons] at hx
      rcases hx with rfl | hx
      · exact Nat.lt_succ_self _
      · have := ih (FaceTable.add st face) x hx
        rw [lastFaceId_add] at this
        exact Nat.lt_of_succ_lt this
    | remove face =>
      simp only [runFaceTable] at hx
      have := ih (FaceTable.remove st face) x hx
      rw [lastFaceId_remove] at this
      exact this

theorem runFaceTable_ids_pairwise (ops : List FtOp) :
    ∀ st : FaceTableState, (runFaceTable st ops).2.Pairwise (· < ·) := by
  induction ops with
  | nil => intro st; simp [runFaceTable]
  | cons op rest ih =>
    intro st
    cases op with
    | add face =>
      simp only [runFaceTable]
      refine List.Pairwise.cons ?_ (ih (FaceTable.add st face))
      intro x hx
      have := runFaceTable_ids_gt rest (FaceTable.add st face) x hx
      rw [lastFaceId_add] at this
      exact this
    | remove face =>
      simp only [runFaceTable]
      exact ih (FaceTable.remove st face)

/-- Claim C2: over any sequence of add/remove operations starting from
a fresh FaceTable (constructor sets `m_lastFaceId = 0`), the FaceIds
assigned by the `add` calls are strictly increasing, all exceed the
INVALID sentinel, and none is ever assigned twice. -/
theorem c2_monotonic_unique_ids (heap0 : List (FaceRef × Face))
    (fib0 : List FibEntry) (ops : List FtOp) :
    (runFaceTable ⟨heap0, 0, [], fib0⟩ ops).2.Pairwise (· < ·) ∧
    (∀ i ∈ (runFaceTable ⟨heap0, 0, [], fib0⟩ ops).2, INVALID_FACEID < i) ∧
    (runFaceTable ⟨heap0, 0, [], fib0⟩ ops).2.Nodup := by
  have hpw := runFaceTable_ids_pairwise ops ⟨heap0, 0, [], fib0⟩
  refine ⟨hpw, ?_, ?_⟩
  · intro i hi
    exact runFaceTable_ids_gt ops ⟨heap0, 0, [], fib0⟩ i hi
  · exact hpw.imp Nat.ne_of_lt

/-- Witness for claim C2 on the concrete sequence
add 7, add 8, remove 7, add 7 over a two-face heap: the second id
assigned (2, to face 8) exceeds the INVALID sentinel. -/
theorem c2_monotonic_unique_ids_witness :
    INVALID_FACEID < 2 ∧
    (2 : FaceId) ∈ (runFaceTable ⟨[(7, ⟨0, [], []⟩), (8, ⟨0, [], []⟩)], 0, [], []⟩
      [.add 7, .add 8, .remove 7, .add 7]).2 :=
  ⟨(c2_monotonic_unique_ids [(7, ⟨0, [], []⟩), (8, ⟨0, [], []⟩)] []
      [.add 7, .add 8, .remove 7, .add 7]).2.1 2 (by decide), by decide⟩

end NFD
